import Mathlib

/-!
# Verification of the video-monitoring pipeline core

A shallow embedding of the streaming/orchestration core of the
`video-processor` repository, together with proofs about its behaviour.

The embedded code lives in `src/ml_models/vision/video_processor.py`
(class `VideoProcessor`: capture loop, throttled detection loop, result
buffer, history log, `get_latest_frame`, `get_detection_history`) and
`src/ml_models/vision/monitor_manager.py` (class `MonitorManager`:
lifecycle, alert queue, alert worker, routing, status/history queries).

Modelling conventions:
* frames are abstract tokens (`Frame := ℕ`): their pixel contents never
  influence the control flow being verified;
* wall-clock instants and detection confidences are rationals (`ℚ`);
  timestamps produced by `datetime.now().isoformat()` on one clock are
  order-isomorphic to the instants they print, so both the string sort
  key and the parsed-datetime comparisons are modelled by the same
  linearly ordered value;
* a Python `queue.Queue` is a list (front = oldest); `maxsize <= 0`
  means unbounded, mirrored by `queueFull`;
* the external detection model (`model.predict`) and the filesystem are
  oracle parameters: `predict` returns `none` when the call raises, a
  persistence oracle returns `.error` when the `json.dump` write raises;
* raw class probabilities and heat-maps carried inside a result dict are
  irrelevant to every property below and are not modelled.
-/

/-- An abstract captured frame (`VideoProcessor._capture_thread` reads
one with `self.cap.read()`); its pixels are opaque to the pipeline. -/
abbrev Frame : Type := ℕ

/-- One entry of the `detections` list of a result dict produced by
`model.predict` (`class_name` and `confidence` keys, as consumed by
`MonitorManager._should_trigger_immediate_alert` and
`VideoProcessor.draw_detection_results`). -/
structure Detection where
  className : String
  confidence : ℚ
deriving DecidableEq, Repr

/-- A detection-result dict as stored by `VideoProcessor._detection_thread`:
the prediction's `detections`, the stamped `timestamp`, and the stamped
`frame_info` (`width`/`height`, both `None` before `start()` ran). -/
structure DetectionResult where
  timestamp : ℚ
  detections : List Detection
  frameWidth : Option ℕ
  frameHeight : Option ℕ
deriving DecidableEq, Repr

/-- `queue.Queue.full()`: a queue with `maxsize <= 0` is never full,
otherwise it is full when it holds at least `maxsize` items. -/
def queueFull {α : Type} (maxsize : ℕ) (q : List α) : Bool :=
  decide (0 < maxsize) && decide (maxsize ≤ q.length)

/-- The buffer-admission step of `VideoProcessor._capture_thread`
(video_processor.py lines 114-124): if `frame_buffer` is full, drop the
oldest frame with `get_nowait()` (a raised `queue.Empty` is swallowed),
then `put_nowait(frame)` (a raised `queue.Full` is swallowed). -/
def capturePush {α : Type} (maxsize : ℕ) (buf : List α) (frame : α) : List α :=
  let buf1 := if queueFull maxsize buf then buf.tail else buf
  if queueFull maxsize buf1 then buf1 else buf1 ++ [frame]

/-- The history-append step of `VideoProcessor._detection_thread`
(video_processor.py lines 156-162): `detection_history.append(results)`
followed by `detection_history.pop(0)` when the length exceeds 1000. -/
def appendHistory (hist : List DetectionResult) (r : DetectionResult) :
    List DetectionResult :=
  let h := hist ++ [r]
  if 1000 < h.length then h.tail else h

/-- Mutable state of one `VideoProcessor` instance (the fields set in
`__init__` and `start`, as far as the pipeline loops touch them). -/
structure PipelineState where
  frameBuffer : List Frame
  resultBuffer : List (Frame × DetectionResult)
  latestDetection : Option DetectionResult
  detectionHistory : List DetectionResult
  lastDetectionTime : ℚ
  isRunning : Bool
  frameWidth : Option ℕ
  frameHeight : Option ℕ
  fps : Option ℕ
deriving DecidableEq, Repr

/-- What one iteration of the `while` body of
`VideoProcessor._detection_thread` did. -/
inductive TickOutcome where
  /-- `current_time - last_detection_time < detection_interval`:
  sleep briefly and `continue`; `predict` is not invoked. -/
  | throttled
  /-- `frame_buffer.get_nowait()` raised `queue.Empty`: `continue`;
  `predict` is not invoked. -/
  | emptyBuffer
  /-- `model.predict` was invoked and succeeded, producing `r`. -/
  | detected (r : DetectionResult)
  /-- `model.predict` was invoked and raised: the error is logged and
  the loop continues. -/
  | predictFailed
deriving DecidableEq, Repr

/-- One iteration of the `while` body of `VideoProcessor._detection_thread`
(video_processor.py lines 132-171).  `interval` is `detection_interval`,
`bufSize` is `buffer_size` (the `maxsize` of `result_buffer`), `predict`
is the external model call (`none` models a raised exception) and `now`
is the instant read at the top of the iteration.  On success the result
is stamped with the current time and the stream dimensions, stored as
`latest_detection`, appended to the bounded history, offered to
`result_buffer` only if that buffer is not full, and
`last_detection_time` is updated; on a `predict` failure none of these
updates happen (`last_detection_time` included, since the assignment
sits inside the `try` block after the raising call). -/
def detectionTick (interval : ℚ) (bufSize : ℕ)
    (predict : Frame → Option (List Detection)) (now : ℚ)
    (s : PipelineState) : PipelineState × TickOutcome :=
  if now - s.lastDetectionTime < interval then
    (s, .throttled)
  else
    match s.frameBuffer with
    | [] => (s, .emptyBuffer)
    | frame :: rest =>
      let s1 := { s with frameBuffer := rest }
      match predict frame with
      | none => (s1, .predictFailed)
      | some dets =>
        let r : DetectionResult :=
          { timestamp := now, detections := dets,
            frameWidth := s.frameWidth, frameHeight := s.frameHeight }
        let rb := if queueFull bufSize s1.resultBuffer then s1.resultBuffer
                  else s1.resultBuffer ++ [(frame, r)]
        ({ s1 with
            latestDetection := some r,
            detectionHistory := appendHistory s1.detectionHistory r,
            resultBuffer := rb,
            lastDetectionTime := now }, .detected r)

/-- `VideoProcessor.get_latest_frame` (video_processor.py lines 173-183):
`result_buffer.get_nowait()` removes and returns the oldest buffered
`(frame, results)` pair; a raised `queue.Empty` is turned into the pair
`(None, None)` with the state untouched. -/
def getLatestFrame (s : PipelineState) :
    (Option Frame × Option DetectionResult) × PipelineState :=
  match s.resultBuffer with
  | [] => ((none, none), s)
  | (f, r) :: rest => ((some f, some r), { s with resultBuffer := rest })

/-- `n` successive calls to `get_latest_frame` on the same processor,
collecting the returned pairs (the polling pattern of the transport
layer's `StreamLatestFrame`). -/
def drainLatest (s : PipelineState) :
    ℕ → List (Option Frame × Option DetectionResult) × PipelineState
  | 0 => ([], s)
  | n + 1 =>
    let (v, s1) := getLatestFrame s
    let (vs, s2) := drainLatest s1 n
    (v :: vs, s2)

/-- The time-range filter of `VideoProcessor.get_detection_history`
(video_processor.py lines 201-210): an entry is kept unless it is
strictly before a given start bound or strictly after a given end
bound. -/
def inTimeRange (startT endT : Option ℚ) (t : ℚ) : Bool :=
  (match startT with
   | none => true
   | some a => !decide (t < a)) &&
  (match endT with
   | none => true
   | some b => !decide (b < t))

/-- `VideoProcessor.get_detection_history` (video_processor.py lines
185-212): with no bounds the whole history is returned, otherwise the
entries passing `inTimeRange`, in history order. -/
def getDetectionHistory (hist : List DetectionResult)
    (startT endT : Option ℚ) : List DetectionResult :=
  if startT = none ∧ endT = none then hist
  else hist.filter (fun r => inTimeRange startT endT r.timestamp)

/-- The class names hard-coded in
`MonitorManager._should_trigger_immediate_alert`
(monitor_manager.py lines 163-164). -/
def dangerClasses : List String :=
  ["smoke", "spark", "overheat", "unauthorized_charging", "cable_damage"]

/-- `MonitorManager._should_trigger_immediate_alert` (monitor_manager.py
lines 150-166): `True` exactly when some entry of the alert's
`detections` list has confidence strictly above `alert_threshold` and a
class name in `dangerClasses`. -/
def shouldTriggerImmediateAlert (alertThreshold : ℚ)
    (alert : DetectionResult) : Bool :=
  alert.detections.any fun d =>
    decide (alertThreshold < d.confidence) && dangerClasses.contains d.className

/-- The two branches taken at the end of `MonitorManager._handle_alert`:
`_send_immediate_alert` vs `_log_alert`. -/
inductive RouteDecision where
  | immediate
  | routine
deriving DecidableEq, Repr

/-- The routing decision of `MonitorManager._handle_alert`
(monitor_manager.py lines 144-148). -/
def routeAlert (alertThreshold : ℚ) (alert : DetectionResult) : RouteDecision :=
  if shouldTriggerImmediateAlert alertThreshold alert then .immediate
  else .routine

/-- A failure of the durable alert write (`open`/`json.dump` in
`MonitorManager._handle_alert` raising, e.g. an `OSError`). -/
inductive PersistError where
  | ioError
deriving DecidableEq, Repr

/-- `MonitorManager._handle_alert` (monitor_manager.py lines 130-148):
write the alert record durably (the `persist` oracle models the
`open`/`json.dump` call and may raise), then route it.  The body
contains no exception handler, so a raised persistence error propagates
to the caller. -/
def handleAlert (persist : DetectionResult → Except PersistError Unit)
    (alertThreshold : ℚ) (alert : DetectionResult) :
    Except PersistError RouteDecision :=
  match persist alert with
  | .error e => .error e
  | .ok _ => .ok (routeAlert alertThreshold alert)

/-- How one iteration of the `while` body of
`MonitorManager._alert_processing_thread` ends. -/
inductive WorkerStep where
  /-- `self.is_running` was false: the `while` loop exits normally. -/
  | exitedNormally
  /-- `alerts_queue.get(timeout=1.0)` raised `queue.Empty`: `continue`,
  the queue (still empty) is unchanged. -/
  | timedOut
  /-- an alert was dequeued and `_handle_alert` completed, taking the
  routing branch `act`; the rest of the queue remains. -/
  | handled (act : RouteDecision) (remaining : List DetectionResult)
  /-- an alert was dequeued and `_handle_alert` raised `e`; the `try`
  in the loop only wraps `alerts_queue.get`, so the exception escapes
  the `while` loop and the worker thread terminates. -/
  | crashed (e : PersistError) (remaining : List DetectionResult)
deriving DecidableEq, Repr

/-- One iteration of the `while` body of
`MonitorManager._alert_processing_thread` (monitor_manager.py lines
117-128), made explicit about how it ends. -/
def alertWorkerIteration (isRunning : Bool)
    (persist : DetectionResult → Except PersistError Unit)
    (alertThreshold : ℚ) (alertsQueue : List DetectionResult) : WorkerStep :=
  if isRunning then
    match alertsQueue with
    | [] => .timedOut
    | alert :: rest =>
      match handleAlert persist alertThreshold alert with
      | .error e => .crashed e rest
      | .ok act => .handled act rest
  else .exitedNormally

/-- Mutable state of one `MonitorManager` instance: the `processors`
dict (insertion-ordered, as Python dicts are), the shared
`alerts_queue`, `alert_threshold`, the system `is_running` flag, and
whether the alert worker thread has been started. -/
structure ManagerState where
  processors : List (String × PipelineState)
  alertsQueue : List DetectionResult
  alertThreshold : ℚ
  isRunning : Bool
  alertThreadStarted : Bool
deriving DecidableEq, Repr

/-- `camera_id in self.processors` / `self.processors[camera_id]` on the
insertion-ordered dict. -/
def lookupProcessor (ps : List (String × PipelineState)) (cameraId : String) :
    Option PipelineState :=
  (ps.find? fun kv => kv.1 == cameraId).map fun kv => kv.2

/-- Writing back the (in Python: in-place mutated) processor object of
one camera. -/
def updateProcessor (ps : List (String × PipelineState)) (cameraId : String)
    (p : PipelineState) : List (String × PipelineState) :=
  ps.map fun kv => if kv.1 == cameraId then (kv.1, p) else kv

/-- `self.processors[camera_id] = processor`: a Python dict assignment
keeps the original position of an existing key and appends a new one. -/
def insertProcessor (ps : List (String × PipelineState)) (cameraId : String)
    (p : PipelineState) : List (String × PipelineState) :=
  if ps.any fun kv => kv.1 == cameraId then updateProcessor ps cameraId p
  else ps ++ [(cameraId, p)]

/-- The errors raised (as `ValueError`) or postulated by the spec for
the orchestrator's query and lifecycle operations. -/
inductive MonitorError where
  | notFound
  | alreadyRunning
deriving DecidableEq, Repr

/-- The status dict built by `MonitorManager.get_camera_status`. -/
structure CameraStatus where
  cameraId : String
  isActive : Bool
  latestDetection : Option DetectionResult
  frameWidth : Option ℕ
  frameHeight : Option ℕ
  fps : Option ℕ
deriving DecidableEq, Repr

/-- `MonitorManager.get_camera_status` (monitor_manager.py lines
191-214): raise for an unknown id, otherwise call the processor's
`get_latest_frame` (which dequeues from its `result_buffer`) and build
the status dict from the returned detection and the processor's
fields.  The returned manager state records the processor's mutated
buffer. -/
def getCameraStatus (m : ManagerState) (cameraId : String) :
    Except MonitorError (CameraStatus × ManagerState) :=
  match lookupProcessor m.processors cameraId with
  | none => .error .notFound
  | some p =>
    let ((_, det), p1) := getLatestFrame p
    .ok ({ cameraId := cameraId,
           isActive := p.isRunning,
           latestDetection := det,
           frameWidth := p.frameWidth,
           frameHeight := p.frameHeight,
           fps := p.fps },
         { m with processors := updateProcessor m.processors cameraId p1 })

/-- Timestamp order on detection results, the `key=lambda x:
x['timestamp']` used by `MonitorManager.get_alerts_history`. -/
def tsLe (a b : DetectionResult) : Prop := a.timestamp ≤ b.timestamp

instance : DecidableRel tsLe := fun a b =>
  inferInstanceAs (Decidable (a.timestamp ≤ b.timestamp))

instance : IsTotal DetectionResult tsLe :=
  ⟨fun a b => le_total a.timestamp b.timestamp⟩

instance : IsTrans DetectionResult tsLe :=
  ⟨fun _ _ _ h1 h2 => le_trans h1 h2⟩

/-- `MonitorManager.get_alerts_history` (monitor_manager.py lines
216-248): with a camera id, that camera's filtered history (or a raised
`ValueError` for an unknown id); without one, the concatenation of
every processor's filtered history sorted by timestamp with Python's
stable `list.sort` (modelled by the stable `List.insertionSort`). -/
def getAlertsHistory (ps : List (String × PipelineState))
    (startT endT : Option ℚ) (cameraId : Option String) :
    Except MonitorError (List DetectionResult) :=
  match cameraId with
  | some cid =>
    match lookupProcessor ps cid with
    | none => .error .notFound
    | some p => .ok (getDetectionHistory p.detectionHistory startT endT)
  | none =>
    let allHistory :=
      (ps.map fun pr => getDetectionHistory pr.2.detectionHistory startT endT).flatten
    .ok (allHistory.insertionSort tsLe)

/-- The pipeline state built by `VideoProcessor.__init__` followed by a
successful `start()` that read the stream properties `(w, h, fps)`. -/
def startedPipeline (w h fps : ℕ) : PipelineState :=
  { frameBuffer := [], resultBuffer := [], latestDetection := none,
    detectionHistory := [], lastDetectionTime := 0, isRunning := true,
    frameWidth := some w, frameHeight := some h, fps := some fps }

/-- `MonitorManager.start_monitoring` (monitor_manager.py lines 56-92).
`camOpen` is the `cv2.VideoCapture` oracle: for a source it yields the
stream properties, or `none` when the source cannot be opened (the
`ValueError` from `VideoProcessor.start` is caught, logged, and the
camera skipped).  When `is_running` is already true the method `return`s
at once: no exception is raised and nothing changes.  The result type
admits an error so that the specified `AlreadyRunning` outcome is
expressible; the code never produces it. -/
def startMonitoring (camOpen : String → Option (ℕ × ℕ × ℕ))
    (m : ManagerState) (cameraConfigs : List (String × String)) :
    Except MonitorError ManagerState :=
  if m.isRunning then .ok m
  else
    let procs := cameraConfigs.foldl
      (fun acc cfg =>
        match camOpen cfg.2 with
        | none => acc
        | some (w, h, fps) => insertProcessor acc cfg.1 (startedPipeline w h fps))
      m.processors
    .ok { m with isRunning := true, processors := procs, alertThreadStarted := true }

/-- One iteration of camera `cameraId`'s detection thread observed at
the orchestrator level (with `buffer_size=30` and
`detection_interval=0.5` fixed by `MonitorManager.start_monitoring`).
`VideoProcessor` holds no reference to the manager, so the iteration
can only touch that processor's own state; in particular nothing in
`_detection_thread` enqueues onto `alerts_queue`. -/
def systemDetectionTick (m : ManagerState) (cameraId : String)
    (predict : Frame → Option (List Detection)) (now : ℚ) : ManagerState :=
  match lookupProcessor m.processors cameraId with
  | none => m
  | some p =>
    let p1 := (detectionTick (1/2) 30 predict now p).1
    { m with processors := updateProcessor m.processors cameraId p1 }


/-- A run of `VideoProcessor._detection_thread`: one `detectionTick` per
scheduled iteration, each supplied with the instant `time.time()` read
at its top and the behaviour of the external model during it.  Returns
the final pipeline state together with the list of `model.predict`
invocations, each recorded as (start instant, whether it succeeded). -/
def detRun (interval : ℚ) (bufSize : ℕ) :
    PipelineState → List (ℚ × (Frame → Option (List Detection))) →
    PipelineState × List (ℚ × Bool)
  | s, [] => (s, [])
  | s, (now, predict) :: rest =>
    let so := detectionTick interval bufSize predict now s
    let r := detRun interval bufSize so.1 rest
    match so.2 with
    | .detected _ => (r.1, (now, true) :: r.2)
    | .predictFailed => (r.1, (now, false) :: r.2)
    | _ => r

/-- `Spaced interval base invs`: walking the invocation log `invs`, each
invocation starts at least `interval` after the most recent successful
invocation before it (`base` before any success). -/
def Spaced (interval : ℚ) : ℚ → List (ℚ × Bool) → Prop
  | _, [] => True
  | base, (t, ok) :: rest =>
    base + interval ≤ t ∧ Spaced interval (if ok then t else base) rest

/-! ### Concrete fixtures

Closed sample states used by the counterexample and witness theorems
below. -/

/-- A high-confidence detection of a danger class. -/
def smokeDetection : Detection := { className := "smoke", confidence := 19/20 }

/-- A sample result carrying `smokeDetection`, stamped at `t`. -/
def sampleResult (t : ℚ) : DetectionResult :=
  { timestamp := t, detections := [smokeDetection],
    frameWidth := some 640, frameHeight := some 480 }

/-- A persistence oracle whose durable write always raises (a disk in
error). -/
def alwaysFailPersist : DetectionResult → Except PersistError Unit :=
  fun _ => .error .ioError

/-- A model oracle that always succeeds with a smoke detection. -/
def smokePredict : Frame → Option (List Detection) :=
  fun _ => some [smokeDetection]

/-- A model oracle whose call always raises. -/
def failPredict : Frame → Option (List Detection) :=
  fun _ => none

/-- A running pipeline, one frame buffered, no detection yet. -/
def c1Pipeline : PipelineState :=
  { startedPipeline 640 480 25 with frameBuffer := [7] }

/-- A running manager owning `c1Pipeline` as camera "cam1", with the
default threshold 0.8 and an empty alert queue. -/
def c1Manager : ManagerState :=
  { processors := [("cam1", c1Pipeline)], alertsQueue := [],
    alertThreshold := 4/5, isRunning := true, alertThreadStarted := true }

/-- A running pipeline whose detection loop is ready to fire at instant
10 (last detection at 0) with two frames buffered. -/
def c6State : PipelineState :=
  { startedPipeline 640 480 25 with frameBuffer := [1, 2] }

/-- A schedule where the first `predict` call raises at instant 10 and
the next iteration runs at instant 10.01. -/
def c6TraceFail : List (ℚ × (Frame → Option (List Detection))) :=
  [(10, failPredict), (1001/100, smokePredict)]

/-- A schedule of two successful detections, at instants 10 and 11. -/
def c6TraceOk : List (ℚ × (Frame → Option (List Detection))) :=
  [(10, smokePredict), (11, smokePredict)]

/-- A running pipeline with two buffered `(frame, result)` pairs whose
most recent detection is `sampleResult 2`. -/
def c8Pipeline : PipelineState :=
  { startedPipeline 640 480 25 with
      resultBuffer := [(1, sampleResult 1), (2, sampleResult 2)],
      latestDetection := some (sampleResult 2),
      detectionHistory := [sampleResult 1, sampleResult 2] }

/-- A running manager owning `c8Pipeline` as camera "cam1". -/
def c8Manager : ManagerState :=
  { processors := [("cam1", c8Pipeline)], alertsQueue := [],
    alertThreshold := 4/5, isRunning := true, alertThreadStarted := true }

/-- A manager on which monitoring has already been started. -/
def c9Manager : ManagerState :=
  { processors := [], alertsQueue := [], alertThreshold := 4/5,
    isRunning := true, alertThreadStarted := true }

/-- A camera oracle under which every source opens with 640x480@25. -/
def allCamerasOpen : String → Option (ℕ × ℕ × ℕ) := fun _ => some (640, 480, 25)

/-- A running pipeline with a single buffered `(frame, result)` pair. -/
def c10State : PipelineState :=
  { startedPipeline 640 480 25 with resultBuffer := [(1, sampleResult 1)] }

/-! ## Helper lemmas -/

/-- Any step function that appends the new element after evicting the
head exactly when the buffer is at capacity keeps, starting from an
empty buffer, exactly the suffix of the pushed sequence that fits. -/
theorem foldl_evict_eq_drop {α : Type} (cap : ℕ) (hcap : 0 < cap)
    (step : List α → α → List α)
    (hstep : ∀ buf x, buf.length ≤ cap →
      step buf x = (if cap ≤ buf.length then buf.tail else buf) ++ [x]) :
    ∀ xs : List α, List.foldl step [] xs = xs.drop (xs.length - cap) := by
  intro xs
  induction xs using List.reverseRecOn with
  | nil => simp
  | append_singleton ys y ih =>
    have hfold : List.foldl step [] (ys ++ [y]) = step (List.foldl step [] ys) y := by
      rw [List.foldl_append]; rfl
    have hblen : (ys.drop (ys.length - cap)).length = ys.length - (ys.length - cap) := by
      simp
    rw [hfold, ih, hstep _ _ (by omega)]
    by_cases h : cap ≤ ys.length
    · rw [if_pos (by omega), List.tail_drop,
        show ys.length - cap + 1 = (ys ++ [y]).length - cap by simp; omega,
        List.drop_append_of_le_length (by simp; omega)]
    · rw [if_neg (by omega),
        show ys.length - cap = 0 by omega, List.drop_zero,
        show (ys ++ [y]).length - cap = 0 by simp; omega, List.drop_zero]

/-- Under its cap, `capturePush` rewrites to the evict-then-append
shape. -/
theorem capturePush_step {α : Type} (cap : ℕ) (hcap : 0 < cap)
    (buf : List α) (x : α) (h : buf.length ≤ cap) :
    capturePush cap buf x = (if cap ≤ buf.length then buf.tail else buf) ++ [x] := by
  by_cases h1 : cap ≤ buf.length
  · have hlen : buf.length = cap := le_antisymm h h1
    have hfull : queueFull cap buf = true := by
      simp [queueFull, hcap, h1]
    have htail : queueFull cap buf.tail = false := by
      simp [queueFull, List.length_tail, hlen]
    simp [capturePush, hfull, htail, h1]
  · have hfull : queueFull cap buf = false := by
      simp [queueFull]
      omega
    simp [capturePush, hfull, h1]

/-- Under its cap, `appendHistory` rewrites to the evict-then-append
shape with capacity 1000. -/
theorem appendHistory_step (hist : List DetectionResult) (r : DetectionResult)
    (h : hist.length ≤ 1000) :
    appendHistory hist r =
      (if 1000 ≤ hist.length then hist.tail else hist) ++ [r] := by
  unfold appendHistory
  by_cases h1 : 1000 ≤ hist.length
  · have hlen : hist.length = 1000 := le_antisymm h h1
    have hne : hist ≠ [] := by
      intro hnil
      rw [hnil] at hlen
      simp at hlen
    rw [if_pos (by simp; omega), if_pos h1, List.tail_append_of_ne_nil hne]
  · rw [if_neg (by simp; omega), if_neg h1]

/-! ## C4: bounded frame buffer, drop-oldest -/

/-- **C4**: for any sequence of pushes by the capture loop, a push never
blocks and never fails (`capturePush` is total and always admits the new
frame for a positive capacity), and after pushing any sequence `xs` into
an initially empty buffer of capacity `C > 0` the buffer holds exactly
the at-most-`C` most recently pushed frames in insertion order (the
suffix of `xs` of length `min C xs.length`); in particular its length
never exceeds `C`. -/
theorem capturePush_keeps_most_recent {α : Type} (C : ℕ) (hC : 0 < C)
    (xs : List α) :
    List.foldl (capturePush C) [] xs = xs.drop (xs.length - C) ∧
    (List.foldl (capturePush C) [] xs).length = min C xs.length := by
  have hmain := foldl_evict_eq_drop C hC (capturePush C)
    (fun buf x hb => capturePush_step C hC buf x hb) xs
  refine ⟨hmain, ?_⟩
  rw [hmain, List.length_drop]
  omega

/-- Witness for C4 at capacity 2 and pushed sequence `[1, 2, 3]`. -/
theorem capturePush_keeps_most_recent_witness :
    0 < 2 ∧
    (List.foldl (capturePush 2) [] [1, 2, 3] = [1, 2, 3].drop ([1, 2, 3].length - 2) ∧
     (List.foldl (capturePush 2) ([] : List ℕ) [1, 2, 3]).length = min 2 [1, 2, 3].length) :=
  ⟨by decide, capturePush_keeps_most_recent 2 (by decide) [1, 2, 3]⟩

/-! ## C5: bounded detection history -/

/-- **C5**: over any sequence of successful detection-loop ticks the
history evolves by `appendHistory`; after appending the results `rs` of
`N = rs.length` successful ticks to an initially empty history, the
history is exactly the suffix of `rs` of length `min 1000 N` — so its
length never exceeds 1000, each insertion beyond the cap evicts the
oldest entry, and once `N > 1000` the length is exactly 1000 with the
first element the oldest of the 1000 most recent results. -/
theorem detectionHistory_bounded (rs : List DetectionResult) :
    List.foldl appendHistory [] rs = rs.drop (rs.length - 1000) ∧
    (List.foldl appendHistory [] rs).length = min 1000 rs.length := by
  have hmain := foldl_evict_eq_drop 1000 (by omega) appendHistory
    (fun hist r hb => appendHistory_step hist r hb) rs
  refine ⟨hmain, ?_⟩
  rw [hmain, List.length_drop]
  omega

/-! ## C3: routing decision -/

/-- **C3**: the routing decision of `_handle_alert` is `Immediate`
exactly when some detection of the result has confidence strictly above
the current alert threshold and a class name in the fixed danger set
{smoke, spark, overheat, unauthorized_charging, cable_damage}, and is
`Routine` otherwise; as a Lean function of the result and the threshold
it is deterministic and side-effect-free by construction. -/
theorem routeAlert_immediate_iff (thr : ℚ) (alert : DetectionResult) :
    (routeAlert thr alert = .immediate ↔
      ∃ d ∈ alert.detections, thr < d.confidence ∧
        d.className ∈ ["smoke", "spark", "overheat",
                       "unauthorized_charging", "cable_damage"]) ∧
    (routeAlert thr alert ≠ .immediate → routeAlert thr alert = .routine) := by
  have hb : shouldTriggerImmediateAlert thr alert = true ↔
      ∃ d ∈ alert.detections, thr < d.confidence ∧
        d.className ∈ ["smoke", "spark", "overheat",
                       "unauthorized_charging", "cable_damage"] := by
    simp [shouldTriggerImmediateAlert, dangerClasses]
  constructor
  · rw [← hb]
    unfold routeAlert
    constructor
    · intro h
      by_contra hfalse
      rw [if_neg (by simp [hfalse])] at h
      exact RouteDecision.noConfusion h
    · intro h
      rw [if_pos h]
  · intro h
    unfold routeAlert at h ⊢
    by_cases hs : shouldTriggerImmediateAlert thr alert = true
    · exact absurd (by rw [if_pos hs]) h
    · rw [if_neg hs]

/-! ## C10: consuming read of the result buffer -/

/-- **C10**: `get_latest_frame` is a consuming read: on an empty result
buffer it returns `(None, None)` without error and leaves the state
untouched; on a non-empty buffer it removes and returns the front pair;
and `n` successive calls return the first `n` buffered pairs (padded
with `(None, None)` once the buffer is exhausted) while the buffer
drops exactly those pairs — so no buffered pair is ever returned by two
calls. -/
theorem getLatestFrame_consuming (s : PipelineState) :
    (s.resultBuffer = [] → getLatestFrame s = ((none, none), s)) ∧
    (∀ f r rest, s.resultBuffer = (f, r) :: rest →
      getLatestFrame s = ((some f, some r), { s with resultBuffer := rest })) ∧
    (∀ n : ℕ, drainLatest s n =
      ((s.resultBuffer.take n).map (fun p => (some p.1, some p.2)) ++
        List.replicate (n - s.resultBuffer.length) ((none, none) :
          Option Frame × Option DetectionResult),
       { s with resultBuffer := s.resultBuffer.drop n })) := by
  refine ⟨?_, ?_, ?_⟩
  · intro h
    unfold getLatestFrame
    rw [h]
  · intro f r rest h
    unfold getLatestFrame
    rw [h]
  · intro n
    induction n generalizing s with
    | zero => simp [drainLatest]
    | succ n ih =>
      match hrb : s.resultBuffer with
      | [] =>
        have hfix : getLatestFrame s = ((none, none), s) := by
          unfold getLatestFrame
          rw [hrb]
        have ihs := ih s
        rw [hrb] at ihs
        simp [drainLatest, hfix, ihs, hrb, List.replicate_succ]
      | (f, r) :: rest =>
        have hfix : getLatestFrame s = ((some f, some r), { s with resultBuffer := rest }) := by
          unfold getLatestFrame
          rw [hrb]
        have ihs := ih { s with resultBuffer := rest }
        simp only [drainLatest, hfix, ihs]
        simp [Nat.succ_sub_succ]

/-- Witness for C10 on a pipeline with one buffered pair: the call
returns that pair and removes it from the buffer. -/
theorem getLatestFrame_consuming_witness :
    getLatestFrame c10State =
      ((some 1, some (sampleResult 1)), { c10State with resultBuffer := [] }) :=
  (getLatestFrame_consuming c10State).2.1 1 (sampleResult 1) [] rfl

/-! ## C1: the detection loop never reaches the alert queue -/

/-- **C1 (failing)**: a detection-loop iteration can only touch its own
processor state and never enqueues onto the orchestrator's
`alerts_queue` — no producer for that queue exists anywhere in the
repository.  Concretely, a tick of camera "cam1" of `c1Manager` at
instant 10 succeeds with a smoke detection at confidence 0.95, which
exceeds the 0.8 threshold and lies in the danger set, yet the alert
queue stays empty, so the alert worker can never dequeue the result. -/
theorem detectionTick_never_enqueues_alert :
    (∀ (m : ManagerState) (cameraId : String)
       (predict : Frame → Option (List Detection)) (now : ℚ),
       (systemDetectionTick m cameraId predict now).alertsQueue = m.alertsQueue) ∧
    ((detectionTick (1/2) 30 smokePredict 10 c1Pipeline).2 =
        .detected (sampleResult 10) ∧
     shouldTriggerImmediateAlert c1Manager.alertThreshold (sampleResult 10) = true ∧
     (systemDetectionTick c1Manager "cam1" smokePredict 10).alertsQueue = []) := by
  have hgen : ∀ (m : ManagerState) (cameraId : String)
      (predict : Frame → Option (List Detection)) (now : ℚ),
      (systemDetectionTick m cameraId predict now).alertsQueue = m.alertsQueue := by
    intro m cameraId predict now
    unfold systemDetectionTick
    cases lookupProcessor m.processors cameraId <;> rfl
  refine ⟨hgen, ?_, ?_, (hgen c1Manager "cam1" smokePredict 10).trans rfl⟩
  · norm_num [detectionTick, c1Pipeline, startedPipeline, smokePredict, sampleResult]
  · norm_num [shouldTriggerImmediateAlert, c1Manager, sampleResult, smokeDetection,
      dangerClasses]

/-! ## C2: persistence failure kills the alert worker -/

/-- **C2 (failing)**: the `try` in `_alert_processing_thread` wraps only
the queue read, so when the durable write inside `_handle_alert` raises,
the exception escapes the `while` loop: the worker thread terminates
with the rest of the queue unprocessed instead of logging and moving to
the next item.  Shown on a two-item queue under a persistence oracle
that always fails, and for every queue shape under that oracle. -/
theorem alertWorker_crashes_on_persist_failure :
    (alertWorkerIteration true alwaysFailPersist (4/5)
        [sampleResult 1, sampleResult 2] =
      .crashed .ioError [sampleResult 2]) ∧
    (∀ (thr : ℚ) (a : DetectionResult) (rest : List DetectionResult),
       alertWorkerIteration true alwaysFailPersist thr (a :: rest) =
         .crashed .ioError rest) :=
  ⟨rfl, fun _ _ _ => rfl⟩

/-! ## C9: StartMonitoring on a running system -/

/-- **C9 (failing)**: `start_monitoring` on an already-running manager
is a silent no-op — the guard `if self.is_running: return` returns
success with the state unchanged and never raises — so the call does
not fail with `AlreadyRunning`.  Shown at `c9Manager` under an oracle
where every camera would open. -/
theorem startMonitoring_silent_when_running :
    startMonitoring allCamerasOpen c9Manager [("cam1", "rtsp://a")] = .ok c9Manager ∧
    ∀ e, startMonitoring allCamerasOpen c9Manager [("cam1", "rtsp://a")] ≠ .error e :=
  ⟨rfl, fun _ h => Except.noConfusion h⟩

/-- **C9 (amended)**: whenever `is_running` is already true,
`start_monitoring` returns at once with success and the manager state
unchanged: no pipelines are created, no worker is started, and no
`AlreadyRunning` error is reported. -/
theorem startMonitoring_noop_when_running
    (camOpen : String → Option (ℕ × ℕ × ℕ)) (m : ManagerState)
    (configs : List (String × String)) (h : m.isRunning = true) :
    startMonitoring camOpen m configs = .ok m := by
  unfold startMonitoring
  rw [if_pos h]

/-- Witness for the amended C9 at the running manager `c9Manager`. -/
theorem startMonitoring_noop_when_running_witness :
    c9Manager.isRunning = true ∧
    startMonitoring allCamerasOpen c9Manager [("cam1", "rtsp://a")] = .ok c9Manager :=
  ⟨rfl, startMonitoring_noop_when_running allCamerasOpen c9Manager
    [("cam1", "rtsp://a")] rfl⟩

/-! ## C6: detection throttling -/

/-- The invocation log of any detection-loop run is spaced: every
`predict` invocation starts at least `detection_interval` after the
most recent successful one, because the gate compares against
`last_detection_time`, which only successful ticks update. -/
theorem detectionTick_gate (interval : ℚ) (bufSize : ℕ)
    (predict : Frame → Option (List Detection)) (now : ℚ) (s : PipelineState)
    (h1 : (detectionTick interval bufSize predict now s).2 ≠ .throttled) :
    s.lastDetectionTime + interval ≤ now := by
  by_cases hgate : now - s.lastDetectionTime < interval
  · exact absurd (by simp [detectionTick, hgate]) h1
  · linarith [not_lt.mp hgate]

/-- `last_detection_time` after one tick: updated to `now` exactly when
the tick produced a result, kept otherwise. -/
theorem detectionTick_lastDet (interval : ℚ) (bufSize : ℕ)
    (predict : Frame → Option (List Detection)) (now : ℚ) (s : PipelineState) :
    (detectionTick interval bufSize predict now s).1.lastDetectionTime =
      (match (detectionTick interval bufSize predict now s).2 with
       | .detected _ => now
       | _ => s.lastDetectionTime) := by
  by_cases hgate : now - s.lastDetectionTime < interval
  · simp [detectionTick, hgate]
  · cases hfb : s.frameBuffer with
    | nil => simp [detectionTick, hgate, hfb]
    | cons frame fbrest =>
      cases hp : predict frame with
      | none => simp [detectionTick, hgate, hfb, hp]
      | some dets => simp [detectionTick, hgate, hfb, hp]

/-- The invocation log of any detection-loop run is spaced: every
`predict` invocation starts at least `detection_interval` after the
most recent successful one, because the gate compares against
`last_detection_time`, which only successful ticks update. -/
theorem detRun_spaced (interval : ℚ) (bufSize : ℕ) :
    ∀ (trace : List (ℚ × (Frame → Option (List Detection)))) (s : PipelineState),
      Spaced interval s.lastDetectionTime (detRun interval bufSize s trace).2 := by
  intro trace
  induction trace with
  | nil => intro s; exact trivial
  | cons step rest ih =>
    intro s
    obtain ⟨now, predict⟩ := step
    have hlast := detectionTick_lastDet interval bufSize predict now s
    simp only [detRun]
    have hrec := ih (detectionTick interval bufSize predict now s).1
    cases hout : (detectionTick interval bufSize predict now s).2 with
    | throttled =>
      rw [hout] at hlast
      simp only at hlast
      rw [hlast] at hrec
      exact hrec
    | emptyBuffer =>
      rw [hout] at hlast
      simp only at hlast
      rw [hlast] at hrec
      exact hrec
    | detected r =>
      rw [hout] at hlast
      simp only at hlast
      rw [hlast] at hrec
      refine ⟨detectionTick_gate interval bufSize predict now s
        (by rw [hout]; intro hc; exact TickOutcome.noConfusion hc), hrec⟩
    | predictFailed =>
      rw [hout] at hlast
      simp only at hlast
      rw [hlast] at hrec
      refine ⟨detectionTick_gate interval bufSize predict now s
        (by rw [hout]; intro hc; exact TickOutcome.noConfusion hc), hrec⟩

/-- In a spaced invocation log, any invocation immediately following a
successful one starts at least `interval` later. -/
theorem spaced_consecutive (interval : ℚ) :
    ∀ (l : List (ℚ × Bool)) (base : ℚ), Spaced interval base l →
      ∀ (i : ℕ) (t1 t2 : ℚ) (ok2 : Bool),
        l[i]? = some (t1, true) → l[i + 1]? = some (t2, ok2) →
        t1 + interval ≤ t2 := by
  intro l
  induction l with
  | nil =>
    intro base _ i t1 t2 ok2 h1 _
    simp at h1
  | cons hd tl ih =>
    intro base hsp i t1 t2 ok2 h1 h2
    obtain ⟨t, ok⟩ := hd
    obtain ⟨_, hrest⟩ := hsp
    cases i with
    | zero =>
      simp at h1
      obtain ⟨ht, hok⟩ := h1
      subst ht
      subst hok
      cases tl with
      | nil => simp at h2
      | cons hd2 tl2 =>
        obtain ⟨t2h, ok2h⟩ := hd2
        simp at h2
        obtain ⟨ht2, _⟩ := h2
        subst ht2
        simp only [if_pos rfl] at hrest
        exact hrest.1
    | succ i =>
      exact ih (if ok then t else base) hrest i t1 t2 ok2
        (by simpa using h1) (by simpa using h2)

/-- **C6 (failing)**: two consecutive `predict` invocations of a
detection-loop run can start less than `detection_interval` apart when
the earlier one failed: with the interval 0.5 of the source, a failed
invocation at instant 10 is followed by another invocation at instant
10.01, only 0.01 apart, because `last_detection_time` is updated inside
the `try` block only after `predict` returns successfully. -/
theorem detectionInterval_violated_after_failure :
    (detRun (1/2) 30 c6State c6TraceFail).2 = [(10, false), (1001/100, true)] ∧
    (1001/100 : ℚ) - 10 < 1/2 := by
  constructor
  · norm_num [detRun, detectionTick, c6State, c6TraceFail, failPredict,
      smokePredict, startedPipeline]
  · norm_num

/-- **C6 (amended)**: consecutive `predict` invocations are at least
`detection_interval` apart whenever the earlier of the two succeeded;
equivalently, every invocation starts at least the interval after the
most recent successful invocation.  (After a failed invocation the next
one may come sooner, as the counterexample shows.) -/
theorem predict_spacing_after_success (interval : ℚ) (bufSize : ℕ)
    (s : PipelineState) (trace : List (ℚ × (Frame → Option (List Detection))))
    (i : ℕ) (t1 t2 : ℚ) (ok2 : Bool)
    (h1 : (detRun interval bufSize s trace).2[i]? = some (t1, true))
    (h2 : (detRun interval bufSize s trace).2[i + 1]? = some (t2, ok2)) :
    t1 + interval ≤ t2 :=
  spaced_consecutive interval (detRun interval bufSize s trace).2
    s.lastDetectionTime (detRun_spaced interval bufSize trace s) i t1 t2 ok2 h1 h2

/-- Witness for the amended C6: two successful invocations at instants
10 and 11 under interval 0.5 are indeed at least 0.5 apart. -/
theorem predict_spacing_after_success_witness :
    ((detRun (1/2) 30 c6State c6TraceOk).2[0]? = some ((10 : ℚ), true)) ∧
    ((detRun (1/2) 30 c6State c6TraceOk).2[1]? = some ((11 : ℚ), true)) ∧
    (10 : ℚ) + 1/2 ≤ 11 := by
  have h1 : (detRun (1/2) 30 c6State c6TraceOk).2[0]? = some ((10 : ℚ), true) := by
    norm_num [detRun, detectionTick, c6State, c6TraceOk, smokePredict,
      startedPipeline]
  have h2 : (detRun (1/2) 30 c6State c6TraceOk).2[1]? = some ((11 : ℚ), true) := by
    norm_num [detRun, detectionTick, c6State, c6TraceOk, smokePredict,
      startedPipeline]
  exact ⟨h1, h2,
    predict_spacing_after_success (1/2) 30 c6State c6TraceOk 0 10 11 true h1 h2⟩

/-! ## C7: merged alert history -/

/-- `get_detection_history` is extensionally the `inTimeRange` filter
(the no-bounds early return included). -/
theorem getDetectionHistory_eq_filter (hist : List DetectionResult)
    (startT endT : Option ℚ) :
    getDetectionHistory hist startT endT =
      hist.filter fun r => inTimeRange startT endT r.timestamp := by
  unfold getDetectionHistory
  by_cases h : startT = none ∧ endT = none
  · obtain ⟨h1, h2⟩ := h
    subst h1
    subst h2
    rw [if_pos ⟨rfl, rfl⟩]
    symm
    apply List.filter_eq_self.mpr
    intro a _
    rfl
  · rw [if_neg h]

/-- Filtering each sublist then flattening is filtering the
flattening. -/
theorem flatten_map_filter (p : DetectionResult → Bool) :
    ∀ ls : List (List DetectionResult),
      (ls.map fun l => l.filter p).flatten = ls.flatten.filter p := by
  intro ls
  induction ls with
  | nil => rfl
  | cons l ls ih =>
    rw [List.map_cons, List.flatten_cons, ih, List.flatten_cons,
      List.filter_append]

/-- Inserting into a list never disturbs, among the entries of any one
timestamp, their relative order: the key of every entry the insertion
walks past is strictly smaller than the inserted key. -/
theorem filter_orderedInsert_timestamp (t : ℚ) (x : DetectionResult) :
    ∀ l : List DetectionResult,
      (List.orderedInsert tsLe x l).filter (fun r => decide (r.timestamp = t)) =
        (if x.timestamp = t then [x] else []) ++
          l.filter (fun r => decide (r.timestamp = t)) := by
  intro l
  induction l with
  | nil =>
    rw [List.orderedInsert_nil]
    by_cases h : x.timestamp = t <;> simp [h]
  | cons b bs ih =>
    by_cases hle : tsLe x b
    · rw [List.orderedInsert_of_le _ _ hle, List.filter_cons]
      by_cases hxt : x.timestamp = t
      · simp [hxt]
      · simp [hxt]
    · by_cases hxt : x.timestamp = t
      · have hbt : ¬ (b.timestamp = t) := fun hbt =>
          hle (le_of_eq (hxt.trans hbt.symm))
        simp [List.orderedInsert, hle, List.filter_cons, ih, hxt, hbt]
      · simp [List.orderedInsert, hle, List.filter_cons, ih, hxt]

/-- Stability of the timestamp sort: entries of any one timestamp keep
their pre-sort relative order. -/
theorem filter_insertionSort_timestamp (t : ℚ) :
    ∀ l : List DetectionResult,
      (l.insertionSort tsLe).filter (fun r => decide (r.timestamp = t)) =
        l.filter (fun r => decide (r.timestamp = t)) := by
  intro l
  induction l with
  | nil => rfl
  | cons x xs ih =>
    show (List.orderedInsert tsLe x (xs.insertionSort tsLe)).filter _ = _
    rw [filter_orderedInsert_timestamp, ih, List.filter_cons]
    by_cases hxt : x.timestamp = t
    · simp [hxt]
    · simp [hxt]

/-- The code's keep-condition is the inclusive range of the spec, with
an omitted bound unbounded on its side. -/
theorem inTimeRange_iff (startT endT : Option ℚ) (t : ℚ) :
    inTimeRange startT endT t = true ↔
      (∀ a, startT = some a → a ≤ t) ∧ (∀ b, endT = some b → t ≤ b) := by
  cases startT <;> cases endT <;> simp [inTimeRange, not_lt]

/-- **C7**: with no camera filter, `get_alerts_history` succeeds and
returns a list that is sorted ascending by timestamp, holds exactly the
entries of all processors' histories whose timestamp lies in the
inclusive range (an omitted bound is unbounded on that side), and is
stable: entries of equal timestamp appear in the per-camera
concatenation order. -/
theorem getAlertsHistory_merged (ps : List (String × PipelineState))
    (startT endT : Option ℚ) :
    ∃ out, getAlertsHistory ps startT endT none = .ok out ∧
      List.Sorted tsLe out ∧
      out.Perm ((ps.map fun pr => pr.2.detectionHistory).flatten.filter
        (fun r => inTimeRange startT endT r.timestamp)) ∧
      (∀ t : ℚ, out.filter (fun r => decide (r.timestamp = t)) =
        ((ps.map fun pr => pr.2.detectionHistory).flatten.filter
          (fun r => inTimeRange startT endT r.timestamp)).filter
            (fun r => decide (r.timestamp = t))) ∧
      (∀ t : ℚ, inTimeRange startT endT t = true ↔
        (∀ a, startT = some a → a ≤ t) ∧ (∀ b, endT = some b → t ≤ b)) := by
  have hall : (ps.map fun pr =>
      getDetectionHistory pr.2.detectionHistory startT endT).flatten =
      (ps.map fun pr => pr.2.detectionHistory).flatten.filter
        (fun r => inTimeRange startT endT r.timestamp) := by
    have hmap : (ps.map fun pr =>
        getDetectionHistory pr.2.detectionHistory startT endT) =
        (ps.map fun pr => pr.2.detectionHistory).map
          (fun l => l.filter fun r => inTimeRange startT endT r.timestamp) := by
      rw [List.map_map]
      exact List.map_congr_left fun pr _ =>
        getDetectionHistory_eq_filter pr.2.detectionHistory startT endT
    rw [hmap, flatten_map_filter]
  refine ⟨_, rfl, ?_, ?_, ?_, inTimeRange_iff startT endT⟩
  · exact List.sorted_insertionSort tsLe _
  · rw [← hall]
    exact List.perm_insertionSort tsLe _
  · intro t
    rw [← hall, filter_insertionSort_timestamp]

/-! ## C8: camera status query -/

/-- Writing back one camera and reading it again yields exactly the
written state. -/
theorem lookupProcessor_update (ps : List (String × PipelineState))
    (cameraId : String) (p : PipelineState) :
    lookupProcessor (updateProcessor ps cameraId p) cameraId =
      (lookupProcessor ps cameraId).map fun _ => p := by
  induction ps with
  | nil => rfl
  | cons kv rest ih =>
    obtain ⟨k, v⟩ := kv
    show lookupProcessor ((if (k == cameraId) = true then (k, p) else (k, v)) ::
      updateProcessor rest cameraId p) cameraId = _
    by_cases hk : (k == cameraId) = true
    · rw [if_pos hk]
      unfold lookupProcessor
      rw [List.find?_cons_of_pos (p := fun kv : String × PipelineState => kv.1 == cameraId) _ hk,
        List.find?_cons_of_pos (p := fun kv : String × PipelineState => kv.1 == cameraId) _ hk]
      rfl
    · rw [if_neg hk]
      unfold lookupProcessor
      rw [List.find?_cons_of_neg (p := fun kv : String × PipelineState => kv.1 == cameraId) _ hk,
        List.find?_cons_of_neg (p := fun kv : String × PipelineState => kv.1 == cameraId) _ hk]
      exact ih

/-- **C8 (failing)**: `get_camera_status` is not a pure snapshot.  On
`c8Manager` (two buffered pairs, most recent detection `sampleResult 2`)
it reports `sampleResult 1` — the oldest buffered result, not the most
recent detection — and dequeues that pair from the result buffer, which
shrinks from two entries to one. -/
theorem getCameraStatus_not_snapshot :
    (getCameraStatus c8Manager "cam1").toOption.map
        (fun x => x.1.latestDetection) = some (some (sampleResult 1)) ∧
    c8Pipeline.latestDetection = some (sampleResult 2) ∧
    (getCameraStatus c8Manager "cam1").toOption.map
        (fun x => (lookupProcessor x.2.processors "cam1").map
          (fun p => p.resultBuffer)) = some (some [(2, sampleResult 2)]) ∧
    c8Pipeline.resultBuffer = [(1, sampleResult 1), (2, sampleResult 2)] ∧
    sampleResult 1 ≠ sampleResult 2 := by
  refine ⟨rfl, rfl, rfl, rfl, ?_⟩
  intro h
  have : (1 : ℚ) = 2 := congrArg DetectionResult.timestamp h
  norm_num at this

/-- **C8 (amended)**: `get_camera_status` fails with `NotFound` for an
unknown camera id; for a known id it returns the running flag, stream
dimensions and fps of the pipeline, but the detection it reports is the
head of the result buffer (`None` when that buffer is empty), not
necessarily `latest_detection`, and as a side effect that head is
dequeued from the result buffer, every other pipeline field staying
unchanged. -/
theorem getCameraStatus_spec (m : ManagerState) (cameraId : String) :
    (lookupProcessor m.processors cameraId = none →
      getCameraStatus m cameraId = .error .notFound) ∧
    (∀ p, lookupProcessor m.processors cameraId = some p →
      ∃ st m', getCameraStatus m cameraId = .ok (st, m') ∧
        st.cameraId = cameraId ∧
        st.isActive = p.isRunning ∧
        st.frameWidth = p.frameWidth ∧
        st.frameHeight = p.frameHeight ∧
        st.fps = p.fps ∧
        st.latestDetection = p.resultBuffer.head?.map (fun q => q.2) ∧
        m'.alertsQueue = m.alertsQueue ∧
        lookupProcessor m'.processors cameraId =
          some { p with resultBuffer := p.resultBuffer.tail }) := by
  constructor
  · intro h
    unfold getCameraStatus
    rw [h]
  · intro p hp
    obtain ⟨fb, rb, ld, dh, ldt, ir, fw, fh, fpsv⟩ := p
    cases rb with
    | nil =>
      have hcs : getCameraStatus m cameraId =
          .ok ({ cameraId := cameraId, isActive := ir, latestDetection := none,
                 frameWidth := fw, frameHeight := fh, fps := fpsv },
               { m with processors := (updateProcessor m.processors cameraId
                   ⟨fb, [], ld, dh, ldt, ir, fw, fh, fpsv⟩) }) := by
        unfold getCameraStatus
        rw [hp]
        rfl
      refine ⟨_, _, hcs, rfl, rfl, rfl, rfl, rfl, rfl, rfl, ?_⟩
      show lookupProcessor (updateProcessor m.processors cameraId _) cameraId = _
      rw [lookupProcessor_update, hp]
      rfl
    | cons q rbrest =>
      obtain ⟨f, r⟩ := q
      have hcs : getCameraStatus m cameraId =
          .ok ({ cameraId := cameraId, isActive := ir, latestDetection := some r,
                 frameWidth := fw, frameHeight := fh, fps := fpsv },
               { m with processors := (updateProcessor m.processors cameraId
                   ⟨fb, rbrest, ld, dh, ldt, ir, fw, fh, fpsv⟩) }) := by
        unfold getCameraStatus
        rw [hp]
        rfl
      refine ⟨_, _, hcs, rfl, rfl, rfl, rfl, rfl, rfl, rfl, ?_⟩
      show lookupProcessor (updateProcessor m.processors cameraId _) cameraId = _
      rw [lookupProcessor_update, hp]
      rfl

/-- Witness for the amended C8 at `c8Manager`: the known camera "cam1"
yields a status built from the pipeline fields and the dequeued head of
its result buffer. -/
theorem getCameraStatus_spec_witness :
    ∃ st m', getCameraStatus c8Manager "cam1" = .ok (st, m') ∧
      st.cameraId = "cam1" ∧
      st.isActive = c8Pipeline.isRunning ∧
      st.frameWidth = c8Pipeline.frameWidth ∧
      st.frameHeight = c8Pipeline.frameHeight ∧
      st.fps = c8Pipeline.fps ∧
      st.latestDetection = c8Pipeline.resultBuffer.head?.map (fun q => q.2) ∧
      m'.alertsQueue = c8Manager.alertsQueue ∧
      lookupProcessor m'.processors "cam1" =
        some { c8Pipeline with resultBuffer := c8Pipeline.resultBuffer.tail } :=
  (getCameraStatus_spec c8Manager "cam1").2 c8Pipeline rfl
